import Mathlib

/-!
Formal model of `src/frontend/components/FounderPortal.tsx`.

The component keeps four pieces of React state (`founder`, `form`,
`students`, `isSubmitting`) plus the browser's local storage under the
key `psyduck_founder_profile`.  We embed the state as a structure, the
handlers as pure state transformers (with an explicit event trace where
the claim is about sequencing), and the platform pieces the component
calls (`String.prototype.trim`, `JSON.stringify` / `JSON.parse`
restricted to the profile record shape) as executable Lean functions.
-/

/-- Record persisted for a founder, as in the `FounderProfile` type of the
source; `website` is optional and omitted from the serialization when
absent. -/
structure FounderProfile where
  id : String
  name : String
  company : String
  email : String
  website : Option String
deriving Repr, DecidableEq

/-- Candidate record, as in the `StudentCandidate` type of the source. -/
structure StudentCandidate where
  id : String
  name : String
  role : String
  skills : List String
  progressPercentage : Nat
  projectsCompleted : Nat
  lastActive : String
  contactEmail : String
deriving Repr, DecidableEq

/-- The controlled form state `{ name, company, email, website }`. -/
structure FormState where
  name : String
  company : String
  email : String
  website : String
deriving Repr, DecidableEq

/-- Authenticated user as delivered by `useAuth()`; only its `id` is read. -/
structure AuthUser where
  id : String
deriving Repr, DecidableEq

/-- Whitespace test for the model of JavaScript string trimming (space,
tab, line feed, carriage return, vertical tab, form feed; further Unicode
space code points are not exercised by any claim). -/
def isJsWhitespace (c : Char) : Bool :=
  c = ' ' || c = '\t' || c = '\n' || c = '\r' ||
    c = Char.ofNat 11 || c = Char.ofNat 12

/-- Model of the platform function `String.prototype.trim`: drop leading
and trailing whitespace. -/
def jsTrim (s : String) : String :=
  ⟨((s.data.dropWhile isJsWhitespace).reverse.dropWhile isJsWhitespace).reverse⟩

/-- The `canSubmit` memo of the source:
`form.name.trim() && form.company.trim() && form.email.trim()`, read as a
boolean (a JavaScript string is truthy exactly when non-empty). -/
def canSubmit (f : FormState) : Bool :=
  (jsTrim f.name != "") && (jsTrim f.company != "") && (jsTrim f.email != "")

/-- Escape a single character the way `JSON.stringify` escapes string
characters: quote and backslash get a leading backslash, everything else
is kept verbatim (control-character escapes are omitted; no claim
exercises them). -/
def escCh (c : Char) : List Char :=
  if c = '"' ∨ c = '\\' then ['\\', c] else [c]

/-- Escape every character of a string body. -/
def escList : List Char → List Char
  | [] => []
  | c :: cs => escCh c ++ escList cs

/-- Render a string as a JSON string literal (quote, escaped body, quote). -/
def jsonQuote (s : String) : List Char :=
  '"' :: (escList s.data ++ ['"'])

/-- Model of `JSON.stringify(profile)` for the `FounderProfile` record
built by `handleSignup`: keys in insertion order `id, name, company,
email, website`, with the `website` key omitted entirely when the field
is absent (in the source, `JSON.stringify` drops `undefined` members). -/
def stringifyProfile (p : FounderProfile) : String :=
  ⟨"\x7b\"id\":".data ++ jsonQuote p.id ++
   ",\"name\":".data ++ jsonQuote p.name ++
   ",\"company\":".data ++ jsonQuote p.company ++
   ",\"email\":".data ++ jsonQuote p.email ++
   (match p.website with
    | some w => ",\"website\":".data ++ jsonQuote w
    | none => []) ++ ['\x7d']⟩

/-- Consume an expected literal character sequence from the front of the
input, failing when it does not match. -/
def expects : List Char → List Char → Option (List Char)
  | [], l => some l
  | _ :: _, [] => none
  | p :: ps, c :: cs => if c = p then expects ps cs else none

/-- Scan a JSON string body up to its closing quote, undoing backslash
escapes; returns the decoded body and the remaining input. -/
def parseStrAux : List Char → Option (List Char × List Char)
  | [] => none
  | c :: rest =>
      if c = '\\' then
        match rest with
        | [] => none
        | d :: rest2 =>
            match parseStrAux rest2 with
            | some (v, r) => some (d :: v, r)
            | none => none
      else if c = '"' then some ([], rest)
      else
        match parseStrAux rest with
        | some (v, r) => some (c :: v, r)
        | none => none

/-- Parse one JSON string literal from the front of the input. -/
def parseQuoted (l : List Char) : Option (String × List Char) :=
  match l with
  | [] => none
  | c :: rest =>
      if c = '"' then
        match parseStrAux rest with
        | some (v, r) => some (⟨v⟩, r)
        | none => none
      else none

/-- Model of the platform call `JSON.parse` as used by the mount effect:
it is restricted to the exact object shape `stringifyProfile` emits, and
`none` stands for the `SyntaxError` that `JSON.parse` throws on text that
is not such a serialization. -/
def parseProfile (s : String) : Option FounderProfile := do
  let l ← expects ("\x7b\"id\":".data) s.data
  let (i, l) ← parseQuoted l
  let l ← expects (",\"name\":".data) l
  let (n, l) ← parseQuoted l
  let l ← expects (",\"company\":".data) l
  let (c, l) ← parseQuoted l
  let l ← expects (",\"email\":".data) l
  let (e, l) ← parseQuoted l
  if l = ['\x7d'] then
    pure { id := i, name := n, company := c, email := e, website := none }
  else do
    let l ← expects (",\"website\":".data) l
    let (w, l) ← parseQuoted l
    if l = ['\x7d'] then
      pure { id := i, name := n, company := c, email := e, website := some w }
    else none

/-- The mock candidate list installed by the mount effect, literal for
literal from the source. -/
def mockStudents : List StudentCandidate :=
  [{ id := "u1", name := "Aarav Sharma", role := "Frontend Developer",
     skills := ["React", "TypeScript", "Tailwind"], progressPercentage := 78,
     projectsCompleted := 5, lastActive := "2h ago",
     contactEmail := "aarav@example.com" },
   { id := "u2", name := "Zoya Khan", role := "Fullstack Developer",
     skills := ["Node.js", "PostgreSQL", "React"], progressPercentage := 91,
     projectsCompleted := 8, lastActive := "1d ago",
     contactEmail := "zoya@example.com" },
   { id := "u3", name := "Kabir Patel", role := "Data Engineer",
     skills := ["Python", "Airflow", "SQL"], progressPercentage := 64,
     projectsCompleted := 3, lastActive := "5h ago",
     contactEmail := "kabir@example.com" }]

/-- Component state: the four `useState` cells plus the local-storage
slot under the key `psyduck_founder_profile` (`storage = none` when no
value is stored). -/
structure PortalState where
  founder : Option FounderProfile
  form : FormState
  students : List StudentCandidate
  isSubmitting : Bool
  storage : Option String
deriving Repr, DecidableEq

/-- State as first rendered, before the mount effect runs, with the given
prior local-storage content. -/
def initState (storage : Option String) : PortalState :=
  { founder := none,
    form := { name := "", company := "", email := "", website := "" },
    students := [], isSubmitting := false, storage := storage }

/-- The two renderable views: the profile form (`!founder` branch) and
the candidate list. -/
inductive View
  | form
  | list
deriving Repr, DecidableEq

/-- Render branch of the component: the form when no founder profile is
set, the candidate list otherwise. -/
def viewOf (s : PortalState) : View :=
  match s.founder with
  | none => View.form
  | some _ => View.list

/-- The mount `useEffect`: read the stored value and, when it passes the
`if (saved)` truthiness guard (a stored empty string is falsy and is
skipped without parsing, like an absent value), parse it and set
`founder`; then install the mock candidate list.  A parse failure is an
uncaught throw (`Except.error`), which aborts the effect before
`setStudents` runs. -/
def mountEffect (s : PortalState) : Except Unit PortalState :=
  match s.storage with
  | some saved =>
      if saved = "" then Except.ok { s with students := mockStudents }
      else
        match parseProfile saved with
        | some p =>
            Except.ok { s with founder := some p, students := mockStudents }
        | none => Except.error ()
  | none => Except.ok { s with students := mockStudents }

/-- The profile record `handleSignup` builds: `id` is
`user?.id || 'local-founder'` (the fallback fires when the user is absent
or its id is the empty string, both falsy), the three required fields are
trimmed, and `website` is `form.website.trim() || undefined`. -/
def buildProfile (user : Option AuthUser) (f : FormState) : FounderProfile :=
  { id := match user with
      | some u => if u.id = "" then "local-founder" else u.id
      | none => "local-founder",
    name := jsTrim f.name, company := jsTrim f.company, email := jsTrim f.email,
    website := if jsTrim f.website = "" then none else some (jsTrim f.website) }

/-- Observable actions of `handleSignup`, in program order: a
`setIsSubmitting` call, the `localStorage.setItem` call with the
serialized value, and the `setFounder` call. -/
inductive Ev
  | setSubmitting (b : Bool)
  | write (v : String)
  | founderSet (p : FounderProfile)
deriving Repr, DecidableEq

/-- Trace semantics of `handleSignup`: when the enablement check fails
the handler returns at once; otherwise the flag is set, the write is
attempted inside `try`, and the `finally` clause clears the flag on both
the normal and the throwing path (`writeThrows` says whether
`localStorage.setItem` throws; the exception is re-raised after
`finally`, modelled by `Except.error`). -/
def handleSignupRun (user : Option AuthUser) (writeThrows : Bool)
    (s : PortalState) : List Ev × Except Unit PortalState :=
  if canSubmit s.form then
    let p := buildProfile user s.form
    if writeThrows then
      ([Ev.setSubmitting true, Ev.write (stringifyProfile p),
        Ev.setSubmitting false],
       Except.error ())
    else
      ([Ev.setSubmitting true, Ev.write (stringifyProfile p),
        Ev.founderSet p, Ev.setSubmitting false],
       Except.ok { s with storage := some (stringifyProfile p),
                          founder := some p, isSubmitting := false })
  else ([], Except.ok s)

/-- The `handleHire` handler: it only raises a modal alert with the shown
message and leaves the state untouched. -/
def handleHire (st : StudentCandidate) (s : PortalState) : PortalState × String :=
  (s, "Hiring request sent for " ++ st.name)

/-- Events that can reach the component. -/
inductive PEvent
  | mount
  | updateForm (f : FormState)
  | submit (user : Option AuthUser) (writeThrows : Bool)
  | contact (st : StudentCandidate)
  | hire (st : StudentCandidate)

/-- One step of the component: `mount` runs the load effect, a form edit
replaces the form state, `submit` runs `handleSignup`, and the contact
and hire actions leave the state unchanged (they only navigate or
alert). -/
def step (s : PortalState) : PEvent → Except Unit PortalState
  | PEvent.mount => mountEffect s
  | PEvent.updateForm f => Except.ok { s with form := f }
  | PEvent.submit user wt => (handleSignupRun user wt s).2
  | PEvent.contact _ => Except.ok s
  | PEvent.hire _ => Except.ok s

/-- Boolean test that the first list starts the second. -/
def isPrefOf : List Char → List Char → Bool
  | [], _ => true
  | _ :: _, [] => false
  | a :: as, b :: bs => a = b && isPrefOf as bs

/-- Boolean substring test: the needle occurs contiguously in the
haystack. -/
def occursIn (needle : List Char) : List Char → Bool
  | [] => needle.isEmpty
  | c :: cs => isPrefOf needle (c :: cs) || occursIn needle cs

/-- The company text interpolated into the contact mail body:
`founder?.company || 'our company'` (the fallback fires when no founder
profile is set or its company is the empty string, both falsy). -/
def companyOrFallback (founder : Option FounderProfile) : String :=
  match founder with
  | some f => if f.company = "" then "our company" else f.company
  | none => "our company"

/-- Subject component of the contact mail link, with the candidate's name
interpolated verbatim. -/
def contactSubject (st : StudentCandidate) : String :=
  "Collaboration%20with%20" ++ st.name

/-- Body component of the contact mail link, with the candidate's name
and the founder's company interpolated verbatim. -/
def contactBody (st : StudentCandidate) (founder : Option FounderProfile) : String :=
  "Hi%20" ++ st.name ++
    ",%0D%0A%0D%0AI%20would%20love%20to%20connect%20regarding%20opportunities%20at%20" ++
    companyOrFallback founder ++ "."

/-- The full link `handleContact` assigns to `window.location.href`. -/
def mailtoFor (st : StudentCandidate) (founder : Option FounderProfile) : String :=
  "mailto:" ++ st.contactEmail ++ "?subject=" ++ contactSubject st ++
    "&body=" ++ contactBody st founder

/-- Recipient of a mail link: the text between the `mailto:` scheme and
the first `?`. -/
def recipientOf (uri : String) : String :=
  match expects ("mailto:".data) uri.data with
  | some rest => ⟨rest.takeWhile (fun c => c ≠ '?')⟩
  | none => ""

/-- Characters `encodeURIComponent` may emit: unreserved characters and
the `%` of an escape sequence. -/
def isEncodedChar (c : Char) : Bool :=
  c.isAlphanum || c = '%' || c = '-' || c = '_' || c = '.' || c = '!' ||
    c = '~' || c = '*' || c = '\'' || c = '(' || c = ')'

/-- A character list is fully percent-encoded output when every character
is from the encoded-output alphabet. -/
def percentEncodedOk (l : List Char) : Bool :=
  l.all isEncodedChar

/-- Form fixture from the spec's submission example. -/
def rohanForm : FormState :=
  { name := "Rohan", company := "Acme", email := "r@acme.com", website := "" }

/-- Form fixture with a website value carrying surrounding whitespace. -/
def rohanFormW : FormState :=
  { name := "Rohan", company := "Acme", email := "r@acme.com",
    website := " https://acme.com " }

/-- Founder profile fixture whose company is `Acme`, as in the spec's
contact example. -/
def acmeFounder : FounderProfile :=
  { id := "local-founder", name := "Rohan", company := "Acme",
    email := "r@acme.com", website := none }

/-- Candidate fixture: the `u2` mock entry (name `Zoya Khan`, email
`zoya@example.com`). -/
def zoyaStudent : StudentCandidate :=
  { id := "u2", name := "Zoya Khan", role := "Fullstack Developer",
    skills := ["Node.js", "PostgreSQL", "React"], progressPercentage := 91,
    projectsCompleted := 8, lastActive := "1d ago",
    contactEmail := "zoya@example.com" }

/-- State reached after submitting `rohanForm` with no authenticated
user, starting from a fresh component with empty storage. -/
def submittedState : PortalState :=
  { founder := some (buildProfile none rohanForm), form := rohanForm,
    students := [], isSubmitting := false,
    storage := some (stringifyProfile (buildProfile none rohanForm)) }

/-- State showing the candidate list with a stored profile, used to
exercise the state-machine invariants at a concrete point. -/
def listedState : PortalState :=
  { founder := some acmeFounder,
    form := { name := "", company := "", email := "", website := "" },
    students := mockStudents, isSubmitting := false,
    storage := some (stringifyProfile acmeFounder) }

/-- State right after the mount effect runs on a fresh component with
empty storage. -/
def mountedState : PortalState :=
  { initState none with students := mockStudents }

/-- Consuming a literal sequence from input that starts with it succeeds
and leaves the remainder. -/
theorem expects_append (pat rest : List Char) :
    expects pat (pat ++ rest) = some rest := by
  induction pat with
  | nil => rfl
  | cons p ps ih => simp [expects, ih]

/-- Scanning an escaped body followed by a closing quote recovers the
original body and the remainder. -/
theorem parseStrAux_esc (s rest : List Char) :
    parseStrAux (escList s ++ '"' :: rest) = some (s, rest) := by
  induction s with
  | nil =>
      rw [escList, List.nil_append, parseStrAux.eq_def]
      simp
  | cons c cs ih =>
      by_cases h : c = '"' ∨ c = '\\'
      · rw [escList, escCh, if_pos h, List.cons_append, List.cons_append,
          parseStrAux.eq_def]
        simp [ih]
      · push_neg at h
        rw [escList, escCh, if_neg (by tauto), List.cons_append,
          parseStrAux.eq_def]
        simp [h.1, h.2, ih]

/-- Parsing a rendered JSON string literal recovers the original string. -/
theorem parseQuoted_quote (s : String) (rest : List Char) :
    parseQuoted (jsonQuote s ++ rest) = some (s, rest) := by
  simp [jsonQuote, parseQuoted, List.append_assoc, parseStrAux_esc]

/-- Round trip of the profile serialization: parsing a stringified
profile yields the profile back, for every profile. -/
theorem parse_stringify (p : FounderProfile) :
    parseProfile (stringifyProfile p) = some p := by
  obtain ⟨i, n, c, e, w⟩ := p
  cases w with
  | none =>
      simp [stringifyProfile, parseProfile, List.append_assoc, expects,
        expects_append, parseQuoted_quote]
  | some w =>
      simp [stringifyProfile, parseProfile, List.append_assoc, expects,
        expects_append, parseQuoted_quote]

/-- A list starts any extension of itself. -/
theorem isPrefOf_self_append (n r : List Char) : isPrefOf n (n ++ r) = true := by
  induction n with
  | nil => rfl
  | cons a as ih => simp [isPrefOf, ih]

/-- A needle that starts the haystack occurs in it. -/
theorem occursIn_of_isPrefOf (n l : List Char) (h : isPrefOf n l = true) :
    occursIn n l = true := by
  cases l with
  | nil => cases n with
    | nil => rfl
    | cons a as => simp [isPrefOf] at h
  | cons c cs => simp [occursIn, h]

/-- Occurrence is preserved by extending the haystack on the left. -/
theorem occursIn_cons (n : List Char) (c : Char) (cs : List Char)
    (h : occursIn n cs = true) : occursIn n (c :: cs) = true := by
  simp [occursIn, h]

/-- A needle occurs in any haystack of the form `a ++ needle ++ b`. -/
theorem occursIn_append (n a b : List Char) :
    occursIn n (a ++ (n ++ b)) = true := by
  induction a with
  | nil => exact occursIn_of_isPrefOf n (n ++ b) (isPrefOf_self_append n b)
  | cons c cs ih => exact occursIn_cons _ c _ ih

/-- Scanning up to the first `?` across a `?`-free block stops exactly at
the separator. -/
theorem takeWhile_no_qmark (l r : List Char) (h : '?' ∉ l) :
    (l ++ '?' :: r).takeWhile (fun c => c ≠ '?') = l := by
  induction l with
  | nil => simp [List.takeWhile]
  | cons c cs ih =>
      simp only [List.mem_cons, not_or] at h
      have hc : c ≠ '?' := fun hcc => h.1 hcc.symm
      have ih2 := ih h.2
      simp only [decide_not] at ih2
      simp [List.takeWhile, hc, decide_not, ih2]

/-- C1: submission is enabled exactly when name, company and email are
non-empty after trimming, and the `website` field never influences the
enablement. -/
theorem canSubmit_spec (f : FormState) :
    (canSubmit f = true ↔
      (jsTrim f.name ≠ "" ∧ jsTrim f.company ≠ "" ∧ jsTrim f.email ≠ "")) ∧
    (∀ w : String, canSubmit { f with website := w } = canSubmit f) := by
  constructor
  · simp [canSubmit, Bool.and_eq_true, bne_iff_ne]
    tauto
  · intro w
    rfl

/-- C2 counterexample: with an authenticated user present whose id is the
empty string, the persisted id is the fallback `local-founder`, not the
supplied identifier, because `user?.id || 'local-founder'` treats the
empty string as falsy. -/
theorem buildProfile_empty_id_ce :
    (buildProfile (some { id := "" }) rohanForm).id = "local-founder" ∧
    ("local-founder" : String) ≠ "" := by
  exact ⟨rfl, by decide⟩

/-- C2 (amended): a submission passing the enablement check persists the
serialized profile, sets it in memory and switches the view to the
candidate list; the persisted record carries the trimmed name, company
and email, omits `website` when it is blank after trimming and keeps the
trimmed value otherwise, and its id is the authenticated user's id,
falling back to `local-founder` when the user is absent or its id is
empty. -/
theorem handleSignup_spec (user : Option AuthUser) (s : PortalState)
    (h : canSubmit s.form = true) :
    (handleSignupRun user false s).2 =
      Except.ok { s with
        storage := some (stringifyProfile (buildProfile user s.form)),
        founder := some (buildProfile user s.form),
        isSubmitting := false } ∧
    (buildProfile user s.form).name = jsTrim s.form.name ∧
    (buildProfile user s.form).company = jsTrim s.form.company ∧
    (buildProfile user s.form).email = jsTrim s.form.email ∧
    (jsTrim s.form.website = "" → (buildProfile user s.form).website = none) ∧
    (jsTrim s.form.website ≠ "" →
      (buildProfile user s.form).website = some (jsTrim s.form.website)) ∧
    (buildProfile user s.form).id =
      (match user with
       | some u => if u.id = "" then "local-founder" else u.id
       | none => "local-founder") ∧
    (∀ s2, (handleSignupRun user false s).2 = Except.ok s2 →
      viewOf s2 = View.list) := by
  refine ⟨by simp [handleSignupRun, h], rfl, rfl, rfl, ?_, ?_, rfl, ?_⟩
  · intro hw
    simp [buildProfile, hw]
  · intro hw
    simp [buildProfile, hw]
  · intro s2 h2
    simp [handleSignupRun, h] at h2
    subst h2
    rfl

/-- Witness for the amended C2 at the spec's example inputs: the
submission with website `" https://acme.com "` is enabled and stores the
trimmed website value. -/
theorem handleSignup_spec_witness :
    canSubmit rohanFormW = true ∧
    (buildProfile none rohanFormW).website = some "https://acme.com" := by
  refine ⟨by decide, ?_⟩
  exact ((handleSignup_spec none { initState none with form := rohanFormW }
    (by decide)).2.2.2.2.2.1 (by decide)).trans (by decide)

/-- C3: every state renders the list exactly when a founder profile is
present and the form otherwise; `View` has exactly the two renderable
states; a successful step never takes a profile away (the transition is
one-way); from a state with no profile and nothing stored, the only event
that can produce a profile is a submission that passes the enablement
check; with nothing stored, the first render and the render after the
mount effect both show the form. -/
theorem view_state_machine :
    (∀ s : PortalState, viewOf s = View.list ↔ s.founder.isSome = true) ∧
    (∀ v : View, v = View.form ∨ v = View.list) ∧
    (∀ s s2 e, step s e = Except.ok s2 →
      s.founder.isSome = true → s2.founder.isSome = true) ∧
    (∀ s s2 e, s.founder = none → s.storage = none →
      step s e = Except.ok s2 → s2.founder.isSome = true →
      ∃ u, e = PEvent.submit u false ∧ canSubmit s.form = true) ∧
    viewOf (initState none) = View.form ∧
    (∀ s2, mountEffect (initState none) = Except.ok s2 →
      viewOf s2 = View.form) := by
  refine ⟨?_, ?_, ?_, ?_, rfl, ?_⟩
  · intro s
    cases hf : s.founder <;> simp [viewOf, hf]
  · intro v
    cases v <;> simp
  · intro s s2 e hstep hsome
    cases e with
    | mount =>
        cases hst : s.storage with
        | none =>
            simp only [step, mountEffect, hst] at hstep
            injection hstep with h2
            rw [← h2]
            simpa using hsome
        | some saved =>
            by_cases he : saved = ""
            · simp [step, mountEffect, hst, he] at hstep
              subst hstep
              simpa using hsome
            · cases hp : parseProfile saved with
              | none => simp [step, mountEffect, hst, he, hp] at hstep
              | some p =>
                  simp [step, mountEffect, hst, he, hp] at hstep
                  subst hstep
                  rfl
    | updateForm f =>
        cases hstep
        simpa using hsome
    | submit u wt =>
        simp only [step, handleSignupRun] at hstep
        by_cases hc : canSubmit s.form
        · rw [if_pos hc] at hstep
          cases wt with
          | true => simp at hstep
          | false => simp at hstep; rw [← hstep]; rfl
        · rw [if_neg hc] at hstep
          cases hstep
          simpa using hsome
    | contact st =>
        cases hstep
        simpa using hsome
    | hire st =>
        cases hstep
        simpa using hsome
  · intro s s2 e hfnone hstnone hstep hsome
    cases e with
    | mount =>
        simp only [step, mountEffect, hstnone] at hstep
        cases hstep
        simp [hfnone] at hsome
    | updateForm f =>
        cases hstep
        simp [hfnone] at hsome
    | submit u wt =>
        refine ⟨u, ?_, ?_⟩
        · by_cases hc : canSubmit s.form
          · cases wt with
            | true => simp [step, handleSignupRun, hc] at hstep
            | false => rfl
          · simp only [step, handleSignupRun, if_neg hc] at hstep
            cases hstep
            simp [hfnone] at hsome
        · by_cases hc : canSubmit s.form
          · exact hc
          · simp only [step, handleSignupRun, if_neg hc] at hstep
            cases hstep
            simp [hfnone] at hsome
    | contact st =>
        cases hstep
        simp [hfnone] at hsome
    | hire st =>
        cases hstep
        simp [hfnone] at hsome
  · intro s2 h2
    simp only [mountEffect, initState] at h2
    cases h2
    rfl

/-- Witness for C3: the list state satisfies the invariant concretely, a
hire step preserves the profile, a fresh state shows the form, and a
concrete enabled submission is recognised as the only profile-creating
event. -/
theorem view_state_machine_witness :
    viewOf listedState = View.list ∧
    listedState.founder.isSome = true ∧
    viewOf (initState none) = View.form ∧
    (∃ u, PEvent.submit (none : Option AuthUser) false = PEvent.submit u false ∧
      canSubmit rohanForm = true) := by
  refine ⟨(view_state_machine.1 listedState).mpr rfl,
    view_state_machine.2.2.1 listedState listedState (PEvent.hire zoyaStudent)
      rfl rfl,
    view_state_machine.2.2.2.2.1, ?_⟩
  exact view_state_machine.2.2.2.1 { initState none with form := rohanForm }
    submittedState (PEvent.submit none false) rfl rfl (by rfl) rfl

/-- C4: whenever the mount effect completes, whatever was stored before,
the candidate list is exactly the three fixed literal entries with ids
`u1`, `u2`, `u3`, in their literal order. -/
theorem mount_students (saved : Option String) (s2 : PortalState)
    (h : mountEffect (initState saved) = Except.ok s2) :
    s2.students = mockStudents ∧
    mockStudents.map (fun st => st.id) = ["u1", "u2", "u3"] ∧
    mockStudents.length = 3 := by
  refine ⟨?_, rfl, rfl⟩
  cases saved with
  | none =>
      simp only [mountEffect, initState] at h
      injection h with h2
      rw [← h2]
  | some str =>
      by_cases he : str = ""
      · simp [mountEffect, initState, he] at h
        subst h
        rfl
      · cases hp : parseProfile str with
        | none => simp [mountEffect, initState, he, hp] at h
        | some p =>
            simp [mountEffect, initState, he, hp] at h
            subst h
            rfl

/-- Witness for C4 on a fresh component with empty storage. -/
theorem mount_students_witness :
    mountEffect (initState none) = Except.ok mountedState ∧
    mountedState.students = mockStudents :=
  ⟨rfl, (mount_students none mountedState rfl).1⟩

/-- C5: the contact link has the candidate's email as recipient, a
subject containing the candidate's name, and a body containing the
candidate's name and the founder's company (the fixed phrase
`our company` when no founder profile is set); instantiated for the
`u2` candidate with founder company `Acme`. -/
theorem contact_mailto_spec (st : StudentCandidate)
    (founder : Option FounderProfile) (h : '?' ∉ st.contactEmail.data) :
    mailtoFor st founder =
      "mailto:" ++ st.contactEmail ++ "?subject=" ++ contactSubject st ++
        "&body=" ++ contactBody st founder ∧
    occursIn st.name.data (contactSubject st).data = true ∧
    occursIn st.name.data (contactBody st founder).data = true ∧
    occursIn (companyOrFallback founder).data
      (contactBody st founder).data = true ∧
    companyOrFallback none = "our company" ∧
    recipientOf (mailtoFor st founder) = st.contactEmail ∧
    recipientOf (mailtoFor zoyaStudent (some acmeFounder)) =
      "zoya@example.com" ∧
    occursIn ("Zoya Khan".data)
      (contactBody zoyaStudent (some acmeFounder)).data = true ∧
    occursIn ("Acme".data)
      (contactBody zoyaStudent (some acmeFounder)).data = true := by
  refine ⟨rfl, ?_, ?_, ?_, rfl, ?_, by decide, by decide, by decide⟩
  · have key : (contactSubject st).data =
        "Collaboration%20with%20".data ++ (st.name.data ++ []) := by
      simp [contactSubject, String.data_append]
    rw [key]
    exact occursIn_append _ _ _
  · have key : (contactBody st founder).data =
        "Hi%20".data ++ (st.name.data ++
          (",%0D%0A%0D%0AI%20would%20love%20to%20connect%20regarding%20opportunities%20at%20" ++
            companyOrFallback founder ++ ".").data) := by
      simp [contactBody, String.data_append, List.append_assoc]
    rw [key]
    exact occursIn_append _ _ _
  · have key : (contactBody st founder).data =
        ("Hi%20" ++ st.name ++
          ",%0D%0A%0D%0AI%20would%20love%20to%20connect%20regarding%20opportunities%20at%20").data ++
          ((companyOrFallback founder).data ++ ['.']) := by
      simp [contactBody, String.data_append, List.append_assoc]
    rw [key]
    exact occursIn_append _ _ _
  · have tw := takeWhile_no_qmark st.contactEmail.data
      (("subject=" ++ contactSubject st ++ "&body=" ++
        contactBody st founder).data) h
    simp only [decide_not] at tw
    simp [String.data_append, List.append_assoc] at tw
    have key : (mailtoFor st founder).data =
        "mailto:".data ++ (st.contactEmail.data ++ '?' ::
          ("subject=" ++ contactSubject st ++ "&body=" ++
            contactBody st founder).data) := by
      simp [mailtoFor, String.data_append, List.append_assoc]
    rw [recipientOf, key, expects_append]
    simp [tw]

/-- Witness for C5 at the `u2` candidate and the `Acme` founder. -/
theorem contact_mailto_witness :
    ('?' ∉ "zoya@example.com".data) ∧
    recipientOf (mailtoFor zoyaStudent (some acmeFounder)) =
      zoyaStudent.contactEmail :=
  ⟨by decide,
    (contact_mailto_spec zoyaStudent (some acmeFounder) (by decide)).2.2.2.2.2.1⟩

/-- C6 counterexample: the subject interpolates the candidate's name
verbatim, so for the `u2` candidate the subject component carries a raw
space and is not percent-encoded output, and the raw space reaches the
final URI. -/
theorem mailto_encoding_ce :
    percentEncodedOk (contactSubject zoyaStudent).data = false ∧
    ' ' ∈ (contactSubject zoyaStudent).data ∧
    ' ' ∈ (mailtoFor zoyaStudent (some acmeFounder)).data := by decide

/-- C6 (amended): the URI is a fixed template whose literal spaces and
line breaks are written pre-encoded (`%20`, `%0D%0A`), while the
candidate's name and the founder's company are interpolated verbatim
with no URL-encoding applied to them. -/
theorem mailto_template_encoding (st : StudentCandidate)
    (founder : Option FounderProfile) :
    (mailtoFor st founder).data =
      ("mailto:" ++ st.contactEmail ++
        "?subject=Collaboration%20with%20").data ++
        (st.name.data ++ ("&body=Hi%20".data ++ (st.name.data ++
          (",%0D%0A%0D%0AI%20would%20love%20to%20connect%20regarding%20opportunities%20at%20".data ++
            ((companyOrFallback founder).data ++ ['.']))))) ∧
    occursIn st.name.data (mailtoFor st founder).data = true ∧
    occursIn (companyOrFallback founder).data
      (mailtoFor st founder).data = true ∧
    percentEncodedOk ("Collaboration%20with%20".data) = true ∧
    percentEncodedOk ("Hi%20".data) = true ∧
    percentEncodedOk
      ("%0D%0A%0D%0AI%20would%20love%20to%20connect%20regarding%20opportunities%20at%20".data) =
      true := by
  refine ⟨?_, ?_, ?_, by decide, by decide, by decide⟩
  · simp [mailtoFor, contactSubject, contactBody, String.data_append,
      List.append_assoc]
  · have key : (mailtoFor st founder).data =
        ("mailto:" ++ st.contactEmail ++
          "?subject=Collaboration%20with%20").data ++
          (st.name.data ++ ("&body=" ++ contactBody st founder).data) := by
      simp [mailtoFor, contactSubject, String.data_append, List.append_assoc]
    rw [key]
    exact occursIn_append _ _ _
  · have key : (mailtoFor st founder).data =
        ("mailto:" ++ st.contactEmail ++ "?subject=" ++ contactSubject st ++
          "&body=Hi%20" ++ st.name ++
          ",%0D%0A%0D%0AI%20would%20love%20to%20connect%20regarding%20opportunities%20at%20").data ++
          ((companyOrFallback founder).data ++ ['.']) := by
      simp [mailtoFor, contactSubject, contactBody, String.data_append,
        List.append_assoc]
    rw [key]
    exact occursIn_append _ _ _

/-- C7: for every enabled submission, on both the normal path and the
path where the persistence write throws, the handler's first action sets
the submitting flag, its second action is the persistence write, its last
action clears the flag, and any state the handler completes with has the
flag cleared. -/
theorem submit_flag_scoped (user : Option AuthUser) (wt : Bool)
    (s : PortalState) (h : canSubmit s.form = true) :
    (handleSignupRun user wt s).1.head? = some (Ev.setSubmitting true) ∧
    (handleSignupRun user wt s).1[1]? =
      some (Ev.write (stringifyProfile (buildProfile user s.form))) ∧
    (handleSignupRun user wt s).1.getLast? = some (Ev.setSubmitting false) ∧
    (∀ s2, (handleSignupRun user wt s).2 = Except.ok s2 →
      s2.isSubmitting = false) := by
  cases wt with
  | false =>
      refine ⟨by simp [handleSignupRun, h], by simp [handleSignupRun, h],
        by simp [handleSignupRun, h, List.getLast?], ?_⟩
      intro s2 h2
      simp [handleSignupRun, h] at h2
      subst h2
      rfl
  | true =>
      refine ⟨by simp [handleSignupRun, h], by simp [handleSignupRun, h],
        by simp [handleSignupRun, h, List.getLast?], ?_⟩
      intro s2 h2
      simp [handleSignupRun, h] at h2

/-- Witness for C7 on the throwing path at the spec's example form. -/
theorem submit_flag_scoped_witness :
    canSubmit rohanForm = true ∧
    (handleSignupRun none true
      { initState none with form := rohanForm }).1.getLast? =
      some (Ev.setSubmitting false) :=
  ⟨by decide, (submit_flag_scoped none true
    { initState none with form := rohanForm } (by decide)).2.2.1⟩

/-- C8: the hire action is a frame: the state (candidate list, founder
profile, stored record, everything) is returned unchanged and only the
alert text is produced. -/
theorem hire_frame (st : StudentCandidate) (s : PortalState) :
    step s (PEvent.hire st) = Except.ok s ∧
    (handleHire st s).1 = s ∧
    (handleHire st s).1.students = s.students ∧
    (handleHire st s).1.founder = s.founder ∧
    (handleHire st s).1.storage = s.storage ∧
    (handleHire st s).2 = "Hiring request sent for " ++ st.name :=
  ⟨rfl, rfl, rfl, rfl, rfl, rfl⟩

/-- C9 counterexample: with the malformed stored value consisting of a
single opening brace, the parse fails and the mount effect throws
(`Except.error`), whereas with nothing stored it completes; the failure
is propagated, not silently swallowed into the no-profile state. -/
theorem mount_malformed_ce :
    parseProfile "\x7b" = none ∧
    mountEffect (initState (some "\x7b")) = Except.error () ∧
    mountEffect (initState none) =
      Except.ok { initState none with students := mockStudents } :=
  ⟨rfl, rfl, rfl⟩

/-- C9 (amended): the mount-time load has no error handling around the
parse: any stored value that passes the `if (saved)` truthiness guard
and that the parser rejects makes the effect throw, so the founder
profile stays unset but the candidate-list initialization is also
skipped.  A stored empty string is falsy, is skipped without parsing,
and the effect completes exactly like the run with nothing stored: the
no-profile state with the mock list installed. -/
theorem mount_malformed_spec (str : String) (hne : str ≠ "")
    (h : parseProfile str = none) :
    mountEffect (initState (some str)) = Except.error () ∧
    mountEffect (initState (some "")) =
      Except.ok { initState (some "") with students := mockStudents } ∧
    (∀ s2, mountEffect (initState none) = Except.ok s2 →
      s2.founder = none ∧ s2.students = mockStudents) := by
  refine ⟨?_, rfl, ?_⟩
  · simp [mountEffect, initState, hne, h]
  · intro s2 h2
    simp only [mountEffect, initState] at h2
    injection h2 with h3
    rw [← h3]
    exact ⟨rfl, rfl⟩

/-- Witness for the amended C9 at a concrete non-empty malformed stored
value. -/
theorem mount_malformed_witness :
    parseProfile "not-json" = none ∧ ("not-json" : String) ≠ "" ∧
    mountEffect (initState (some "not-json")) = Except.error () :=
  ⟨rfl, by decide, (mount_malformed_spec "not-json" (by decide) rfl).1⟩

/-- C10: every state an enabled submission completes with stores a
serialized string that parses back to exactly the in-memory founder
profile gating the view. -/
theorem persisted_roundtrip (user : Option AuthUser) (s : PortalState)
    (h : canSubmit s.form = true) :
    ∀ s2, (handleSignupRun user false s).2 = Except.ok s2 →
      ∃ str, s2.storage = some str ∧ parseProfile str = s2.founder ∧
        s2.founder = some (buildProfile user s.form) := by
  intro s2 h2
  simp [handleSignupRun, h] at h2
  subst h2
  exact ⟨stringifyProfile (buildProfile user s.form), rfl,
    by simpa using parse_stringify (buildProfile user s.form), rfl⟩

/-- Witness for C10 at the spec's example submission. -/
theorem persisted_roundtrip_witness :
    canSubmit rohanForm = true ∧
    (∃ str, submittedState.storage = some str ∧
      parseProfile str = submittedState.founder ∧
      submittedState.founder = some (buildProfile none rohanForm)) :=
  ⟨by decide, persisted_roundtrip none
    { initState none with form := rohanForm } (by decide) submittedState rfl⟩
